import Mathlib

/-!
Verification of the rpmautospec commit-history analysis engine
(`rpmautospec/pkg_history.py`).

The Python source is shallowly embedded: pygit2 objects are represented by
their object ids (natural numbers), the git accessor and the external `rpm`
query tool are abstract function fields of a `Repo` structure, Python
dictionaries with a known key set become Lean structures, and the two-pass
graph walker of `PkgHistoryProcessor._run_on_history` becomes a fuel-indexed
recursive function over an explicit state.

Python semantics notes used throughout:
* pygit2 `Object` rich comparison compares object ids; `Oid` rich comparison
  accepts only `Oid`/`str`.  Comparing an `Oid` with a `Commit` therefore
  falls back to identity and is `False`.
* `None == None` is `True`; this matters for the `epoch-version` comparison
  in the release-number visitor, so epoch-versions are `Option String` and
  compared structurally.
* An empty dict / empty string / `None` are falsy.
-/

namespace Rpmautospec

/-- Python `max(iterable, default=d)` over natural numbers: the default when
the list is empty, otherwise the maximum of the elements. -/
def pyMaxD (d : Nat) : List Nat → Nat
  | [] => d
  | x :: xs => xs.foldl max x

/-- Python truthiness of an optional string: `None` and the empty string are
falsy. -/
def pyTruthyStr : Option String → Bool
  | none => false
  | some s => !(s = "")

/-- Python `str(...)` rendering of an optional string inside an f-string:
`None` renders as the text "None". -/
def pyShow : Option String → String
  | none => "None"
  | some s => s

/-- Python `str.lstrip()` restricted to whitespace. -/
def pyLstrip (s : String) : String :=
  String.mk (s.data.dropWhile Char.isWhitespace)

/-- Python `str.strip()` restricted to whitespace: drop leading and trailing
whitespace characters. -/
def pyStrip (s : String) : String :=
  String.mk (((s.data.dropWhile Char.isWhitespace).reverse.dropWhile
    Char.isWhitespace).reverse)

/-- Splitting a character list at every occurrence of a separator character,
keeping empty fragments, as Python `str.split(sep)` does for a one-character
separator (the only shape the source splits on: "\n" and " "). -/
def splitChar (sep : Char) : List Char → List (List Char)
  | [] => [[]]
  | ch :: rest =>
    let r := splitChar sep rest
    if ch = sep then [] :: r
    else
      match r with
      | [] => [[ch]]
      | w :: ws => (ch :: w) :: ws

/-- Python `s.split(sep)` for a one-character separator. -/
def pySplit (sep : Char) (s : String) : List String :=
  (splitChar sep s.data).map String.mk

/-- Whether a string starts with the character "-"
(Python `s.startswith("-")`). -/
def startsWithDash (s : String) : Bool :=
  match s.data with
  | ch :: _ => ch = '-'
  | [] => false

/-- Python `s[1:]`. -/
def pyDropOne (s : String) : String :=
  String.mk (s.data.drop 1)

/-- The numeric value of a digit-only string (how Python `int(...)` reads the
base group, which the flags regex constrains to digits). -/
def natOfDigits (s : String) : Nat :=
  s.data.foldl (fun acc ch => acc * 10 + (ch.toNat - 48)) 0

/-- Join fragments with a separator (Python `sep.join(...)`). -/
def joinWith (sep : String) : List String → String
  | [] => ""
  | w :: ws => ws.foldl (fun acc x => acc ++ sep ++ x) w

/-- Glob matching for `fnmatch.fnmatchcase`, restricted to literal characters
and the wildcards `*` (any sequence) and `?` (any single character).  The
fixed pattern list `changelog_ignore_patterns` of the source uses only
literals and `*`, so character classes are not needed.  As in `fnmatch`, `*`
also matches `/`.  Every recursive call shrinks the pattern or the string,
so a fuel of their combined length is exact; the fuel keeps the recursion
structural. -/
def globMatch : Nat → List Char → List Char → Bool
  | 0, _, _ => false
  | _ + 1, [], s => s.isEmpty
  | fuel + 1, '*' :: ps, s =>
    globMatch fuel ps s ||
      (match s with
       | [] => false
       | _ :: s2 => globMatch fuel ('*' :: ps) s2)
  | _ + 1, _ :: _, [] => false
  | fuel + 1, p :: ps, ch :: s => (p = '?' || p = ch) && globMatch fuel ps s

/-- Python `fnmatch.fnmatchcase(name, pattern)`. -/
def fnmatchcase (nm pat : String) : Bool :=
  globMatch (pat.data.length + nm.data.length + 1) pat.data nm.data

/-- The class attribute `PkgHistoryProcessor.changelog_ignore_patterns`. -/
def changelogIgnorePatterns : List String :=
  [".gitignore", "gating.yaml", "sources", "tests/*"]

/-- Greedy line filling of `textwrap.TextWrapper.fill`: accumulate words on
the current line while the line, a separating space and the word fit in
`width` columns; otherwise start a new line with the subsequent indent.
Faithful to `TextWrapper(width, subsequent_indent).fill` for texts whose
words (maximal non-whitespace runs) are shorter than the available width and
contain no hyphens, which covers the texts the changelog visitor wraps. -/
def fillLines (width : Nat) (indent : String) : String → List String → List String
  | line, [] => [line]
  | line, w :: ws =>
    if line.length + 1 + w.length ≤ width then
      fillLines width indent (line ++ " " ++ w) ws
    else
      line :: fillLines width indent (indent ++ w) ws

/-- Embeds `TextWrapper(width=width, subsequent_indent=indent).fill(text)` under the
restrictions documented at `fillLines`: whitespace is collapsed, the text is
split into words, and the lines produced by greedy filling are joined with
newlines. -/
def textwrapFill (width : Nat) (indent : String) (text : String) : String :=
  let collapsed := String.mk (text.data.map fun ch => if ch.isWhitespace then ' ' else ch)
  let words := (pySplit ' ' collapsed).filter fun w => !(w = "")
  match words with
  | [] => ""
  | w :: ws => joinWith "\n" (fillLines width indent w ws)

/-- Civil date (year, month, day) from a count of days since 1970-01-01,
for non-negative day counts (the era-based algorithm used by common civil
calendar implementations). -/
def civilFromDays (z : Nat) : Nat × Nat × Nat :=
  let z2 := z + 719468
  let era := z2 / 146097
  let doe := z2 % 146097
  let yoe := (doe - doe / 1460 + doe / 36524 - doe / 146096) / 365
  let y := yoe + era * 400
  let doy := doe - (365 * yoe + yoe / 4 - yoe / 100)
  let mp := (5 * doy + 2) / 153
  let d := doy - (153 * mp + 2) / 5 + 1
  let m := if mp < 10 then mp + 3 else mp - 9
  (if m ≤ 2 then y + 1 else y, m, d)

/-- Month abbreviations for `strftime("%b")`. -/
def monthAbbrev (m : Nat) : String :=
  (["Jan", "Feb", "Mar", "Apr", "May", "Jun",
    "Jul", "Aug", "Sep", "Oct", "Nov", "Dec"].getD (m - 1) "Jan")

/-- Weekday abbreviation for `strftime("%a")` from a count of days since
1970-01-01 (which was a Thursday). -/
def weekdayAbbrev (days : Nat) : String :=
  (["Sun", "Mon", "Tue", "Wed", "Thu", "Fri", "Sat"].getD ((days + 4) % 7) "Sun")

/-- Zero-padded two-digit rendering for `strftime("%d")`. -/
def pad2 (n : Nat) : String :=
  if n < 10 then "0" ++ toString n else toString n

/-- Embeds `datetime.utcfromtimestamp(t).strftime("%a %b %d %Y")` for a non-negative
Unix timestamp. -/
def formatCommitDate (t : Nat) : String :=
  let days := t / 86400
  let ymd := civilFromDays days
  weekdayAbbrev days ++ " " ++ monthAbbrev ymd.2.1 ++ " " ++ pad2 ymd.2.2
    ++ " " ++ toString ymd.1

/-- A pygit2 commit, reduced to the data the engine reads: object id, ordered
parent ids (first parent is the mainline), tree id, author name and email,
commit time (Unix seconds) and message. -/
structure Commit where
  id : Nat
  parents : List Nat
  tree : Nat
  authorName : String
  authorEmail : String
  commitTime : Nat
  message : String
deriving DecidableEq

/-- The external collaborators of the engine, as abstract deterministic
functions: the git accessor (commit lookup by id, tree-entry lookup by path
returning a blob id, blob content, tree-to-tree diffs as the set of changed
file paths, and the list of commits reachable from a head as returned by
`Repository.walk`) and the external `rpm` query tool, keyed by the content
(blob id) of the spec file it is invoked on.  `rpmQuery b = none` models the
subprocess raising (`subprocess.check_output` failing for any reason);
`some out` is the decoded, stripped standard output. -/
structure Repo where
  commit : Nat → Commit
  treeEntry : Nat → String → Option Nat
  blobData : Nat → String
  diffPaths : Nat → Nat → List String
  diffEmpty : Nat → List String
  walk : Nat → List Commit
  rpmQuery : Nat → Option String

/-- Parsed `%autorelease` metadata for one commit
(`_get_rpmverflags` result dict): the epoch-version string, and the
extraver/snapinfo/prerelease/base fields, each `none` when the flags line did
not match `autorelease_flags_re` (Python `None`). -/
structure VerFlags where
  epochVersion : String
  extraver : Option String
  snapinfo : Option String
  prerelease : Option Bool
  base : Option Nat
deriving DecidableEq

/-- One changelog entry dict: the commit id, the formatted text block under
key "data", and the optional error tag. -/
structure ChangelogEntry where
  commitId : Nat
  data : String := ""
  error : Option String := none
deriving DecidableEq

/-- The per-commit result dict.  The walker seeds "commit-id"; the
release-number visitor adds "epoch-version" (a Python value that may itself
be `None`), "release-number" and "release-complete"; the changelog visitor
adds "changelog".  Key absence is conflated with the default field value;
this is faithful for every access the source performs: "commit-id" is always
seeded, the release-number keys are read only from results produced by the
release-number visitor, and "changelog" is only read through
`.get("changelog", ())`. -/
structure CommitResult where
  commitId : Nat
  epochVersion : Option String := none
  releaseNumber : Nat := 0
  releaseComplete : String := ""
  changelog : List ChangelogEntry := []
deriving DecidableEq

/-- The only exception `_get_rpmverflags` can escape with: the `IndexError`
of `split_output[1]` when the tool output holds no newline (the indexing
happens outside the `try` block). -/
inductive PyErr
  | indexError
deriving DecidableEq

/-- Match of `autorelease_flags_re` on the release line.  The regex is
anchored and its character classes exclude the separators, so matching is
deterministic: after "E" the extraver group runs to the first underscore,
after "_S" the snapinfo group runs to the next underscore, then "_P" takes a
single 0 or 1, and "_B" takes a digit-only tail.  Returns the four groups, or
`none` when the line does not match. -/
def parseAutoreleaseFlags (info : String) : Option (String × String × Char × String) :=
  match info.data with
  | 'E' :: rest =>
    let ev := rest.takeWhile fun ch => ch ≠ '_'
    (match rest.dropWhile (fun ch => ch ≠ '_') with
     | '_' :: 'S' :: rest2 =>
       let sn := rest2.takeWhile fun ch => ch ≠ '_'
       (match rest2.dropWhile (fun ch => ch ≠ '_') with
        | '_' :: 'P' :: pch :: '_' :: 'B' :: rest3 =>
          if (pch = '0' || pch = '1') && rest3.all Char.isDigit then
            some (String.mk ev, String.mk sn, pch, String.mk rest3)
          else none
        | _ => none)
     | _ => none)
  | _ => none

/-- Embeds `PkgHistoryProcessor._get_rpmverflags`, with the file system and the
subprocess abstracted: `specfileExists` is the `specfile.exists()` check and
`toolOut` the outcome of the `rpm` invocation (`none` when `check_output`
raises, which the source catches and converts to `None`).  On success the
stripped output is split on newlines; the second line is the release field,
matched against the flags regex.  A match with an empty group yields `None`
for extraver/snapinfo (`or None`) and base 1 for an empty base group;
without a match all four flag fields are `None`.  An output without a second
line makes the source raise `IndexError`. -/
def getRpmverflags (specfileExists : Bool) (toolOut : Option String) :
    Except PyErr (Option VerFlags) :=
  if !specfileExists then .ok none
  else
    match toolOut with
    | none => .ok none
    | some output =>
      match pySplit '\n' output with
      | ev :: info :: _ =>
        (match parseAutoreleaseFlags info with
         | some g =>
           let extraver := if g.1 = "" then none else some g.1
           let snapinfo := if g.2.1 = "" then none else some g.2.1
           let prerelease := some (g.2.2.1 == '1')
           let base := if g.2.2.2 = "" then some 1 else some (natOfDigits g.2.2.2)
           .ok (some { epochVersion := ev, extraver := extraver, snapinfo := snapinfo,
                       prerelease := prerelease, base := base })
         | none =>
           .ok (some { epochVersion := ev, extraver := none, snapinfo := none,
                       prerelease := none, base := none }))
      | _ => .error .indexError

/-- Embeds `PkgHistoryProcessor._get_rpmverflags_for_commit`: look the spec file up
in the commit's tree (`KeyError` means no spec file, returning `None`), write
its blob to a temporary directory and query it.  The temporary file always
exists, so the `specfile.exists()` check inside `_get_rpmverflags` passes. -/
def getRpmverflagsForCommit (repo : Repo) (nm : String) (c : Commit) :
    Except PyErr (Option VerFlags) :=
  match repo.treeEntry c.tree (nm ++ ".spec") with
  | none => .ok none
  | some blob => getRpmverflags true (repo.rpmQuery blob)

/-- The verflags of a commit as consumed by the visitors.  A malformed tool
output (no newline in the stripped stdout) would crash the whole Python run
with an uncaught `IndexError`; the walker embedding considers runs on
repositories whose query tool output is well formed, collapsing that error
case to `none`. -/
def verflagsOf (repo : Repo) (nm : String) (c : Commit) : Option VerFlags :=
  match getRpmverflagsForCommit repo nm c with
  | .ok v => v
  | .error _ => none

/-- The ".{t}" tag fragment contributed by one optional tag in
`tag_string = "".join(f".{t}" for t in (extraver, snapinfo) if t)`:
empty for a falsy tag (`None` or the empty string). -/
def tagPart : Option String → String
  | some t => if t = "" then "" else "." ++ t
  | none => ""

/-- The state of `release_number_visitor` between its phase-1 `yield` and its
phase-2 resumption: the values computed on lines 170-192 of the source. -/
structure RelP1 where
  epochVersion : Option String
  prerelease : Option Bool
  base : Nat
  tagString : String
  mustContinue : Bool
deriving DecidableEq

/-- The epoch-versions collected from the commit's parents
(`epoch_versions_to_check`): parents whose verflags query fails contribute
nothing. -/
def parentEpochVersions (repo : Repo) (nm : String) (c : Commit) : List String :=
  c.parents.filterMap fun p => (verflagsOf repo nm (repo.commit p)).map VerFlags.epochVersion

/-- Phase 1 of `release_number_visitor` (lines 170-196).  `verflags` truthy
means the query returned a dict; the commit's epoch-version is then that
dict's (string) field, otherwise Python `None`.  A falsy epoch-version
(absent or empty) forces `must_continue = True`; otherwise `must_continue`
is the membership test of the commit's epoch-version among the parents'.
The visitor ignores `children_must_continue`. -/
def relPhase1 (repo : Repo) (nm : String) (c : Commit)
    (childrenMustContinue : Bool) : RelP1 :=
  let _ := childrenMustContinue
  let vfo := verflagsOf repo nm c
  let ev : Option String := vfo.map VerFlags.epochVersion
  let prerelease : Option Bool :=
    match vfo with
    | some vf => vf.prerelease
    | none => none
  let base : Nat :=
    match vfo with
    | some vf => vf.base.getD 1
    | none => 1
  let tagString : String :=
    match vfo with
    | some vf => tagPart vf.extraver ++ tagPart vf.snapinfo
    | none => ""
  let mc : Bool :=
    if pyTruthyStr ev then (parentEpochVersions repo nm c).contains (ev.getD "")
    else true
  { epochVersion := ev, prerelease := prerelease, base := base,
    tagString := tagString, mustContinue := mc }

/-- The contribution of one parent result to the release-number maximum
(line 204): `res["release-number"] if res and epoch_version ==
res["epoch-version"] else 0`, where an undiscovered parent's result is the
falsy empty dict (`none` here) and the epoch-version comparison is Python
`==` on possibly-`None` values. -/
def relParentContribution (ev : Option String) : Option CommitResult → Nat
  | some res => if ev = res.epochVersion then res.releaseNumber else 0
  | none => 0

/-- Phase 2 of `release_number_visitor` (lines 198-216): record the
epoch-version, set the release number to one plus the maximum parent
contribution (`max(..., default=0) + 1`), and format "release-complete" as
the prerelease "0." marker, the number shifted by `base - 1`, and the tag
string. -/
def relPhase2 (p1 : RelP1) (res : CommitResult)
    (parentResults : List (Option CommitResult)) : CommitResult :=
  let releaseNumber := pyMaxD 0 (parentResults.map (relParentContribution p1.epochVersion)) + 1
  let prerelStr :=
    match p1.prerelease with
    | some true => "0."
    | _ => ""
  let withBase := releaseNumber + p1.base - 1
  { res with
    epochVersion := p1.epochVersion
    releaseNumber := releaseNumber
    releaseComplete := prerelStr ++ toString withBase ++ p1.tagString }

/-- Whether the spec file exists in the commit's tree
(`f"{self.name}.spec" in commit.tree`, line 238). -/
def specfilePresent (repo : Repo) (nm : String) (c : Commit) : Bool :=
  (repo.treeEntry c.tree (nm ++ ".spec")).isSome

/-- The changelog blob of a tree, `none` on `KeyError` (lines 242-245). -/
def changelogBlob (repo : Repo) (tree : Nat) : Option Nat :=
  repo.treeEntry tree "changelog"

/-- Whether the changelog differs from every parent (lines 247-258): with
parents, true unless some parent holds the same changelog blob (pygit2 blob
equality is object-id equality, and two absent blobs compare equal as
`None == None`); for a root commit, true exactly when the blob exists. -/
def changelogChanged (repo : Repo) (c : Commit) : Bool :=
  let blob := changelogBlob repo c.tree
  match c.parents with
  | [] => blob.isSome
  | _ :: _ => !(c.parents.any fun p => blob = changelogBlob repo (repo.commit p).tree)

/-- Which parent the changelog visitor follows (lines 260-272): the only
parent for a non-merge commit, none for a root commit, and for a merge
commit the first parent in parent order whose tree id equals the merge
commit's tree id, if any. -/
def parentToFollow (repo : Repo) (c : Commit) : Option Commit :=
  if c.parents.length < 2 then
    match c.parents with
    | [] => none
    | p :: _ => some (repo.commit p)
  else
    (c.parents.map repo.commit).find? fun p => c.tree == p.tree

/-- Whether a merge cannot be attributed to a single lineage (lines
273-277): at least two parents, none of them sharing the merge's tree, and
the changelog not changed in the merge commit. -/
def mergeUnresolvable (repo : Repo) (c : Commit) : Bool :=
  if c.parents.length < 2 then false
  else if ((c.parents.map repo.commit).find? fun p => c.tree == p.tree).isSome then false
  else !(changelogChanged repo c)

/-- The state of `changelog_visitor` between its phase-1 `yield` and its
phase-2 resumption (lines 237-283). -/
structure ClogP1 where
  specfilePresent : Bool
  changelogChanged : Bool
  parentToFollow : Option Commit
  mergeUnresolvable : Bool
  mustContinue : Bool

/-- Phase 1 of `changelog_visitor`: gather the flags and yield
`not (changelog_changed or merge_unresolvable) and specfile_present and
children_must_continue` (lines 279-283). -/
def clogPhase1 (repo : Repo) (nm : String) (c : Commit)
    (childrenMustContinue : Bool) : ClogP1 :=
  let sp := specfilePresent repo nm c
  let ch := changelogChanged repo c
  let mu := mergeUnresolvable repo c
  { specfilePresent := sp, changelogChanged := ch,
    parentToFollow := parentToFollow repo c, mergeUnresolvable := mu,
    mustContinue := !(ch || mu) && sp && childrenMustContinue }

/-- Python `==` between a pygit2 `Oid` (the "commit-id" value of a result
dict) and a pygit2 `Commit` (`parent_to_follow`), as written on line 320 of
the source: `Oid` rich comparison accepts only `Oid`/`str` and `Object` rich
comparison accepts only `Object`, so both return `NotImplemented` and the
comparison falls back to identity, which never holds between two distinct
objects.  The comparison is therefore constantly false. -/
def pyOidEqCommit (oid : Nat) (c : Commit) : Bool :=
  let _ := oid
  let _ := c
  false

/-- The multi-parent arm of the previous-changelog lookup (lines 318-322):
scan the ordered parent results for the one whose "commit-id" equals
`parent_to_follow` and take its changelog.  Comparing an id with a commit
object (`pyOidEqCommit`) or with `None` never succeeds, so in the source as
written the scan always falls through to the empty tuple.  (For an
undiscovered parent the Python code would raise `KeyError` on
`candidate["commit-id"]`; that access is unreachable for resolvable merges
whose traversal continued, and is modelled as a non-match.) -/
def findInheritedChangelog (ptf : Option Commit) :
    List (Option CommitResult) → List ChangelogEntry
  | [] => []
  | none :: rest => findInheritedChangelog ptf rest
  | some res :: rest =>
    match ptf with
    | some p =>
      if pyOidEqCommit res.commitId p then res.changelog
      else findInheritedChangelog ptf rest
    | none => findInheritedChangelog ptf rest

/-- The previous changelog pulled from the parent results (lines 313-322):
for a single parent, `parent_results[0].get("changelog", ())`; otherwise the
scan of `findInheritedChangelog`. -/
def inheritedChangelog (c : Commit) (ptf : Option Commit)
    (parentResults : List (Option CommitResult)) : List ChangelogEntry :=
  if c.parents.length == 1 then
    match parentResults.headD none with
    | some res => res.changelog
    | none => []
  else
    findInheritedChangelog ptf parentResults

/-- The changed files between the commit and its followed parent, or against
the empty tree for a root commit (lines 325-329).  `diffPaths`/`diffEmpty`
already deliver the set of old and new delta paths that
`_files_changed_in_diff` collects. -/
def changedFilesOf (repo : Repo) (c : Commit) (ptf : Option Commit) : List String :=
  match ptf with
  | some p => repo.diffPaths p.tree c.tree
  | none => repo.diffEmpty c.tree

/-- Embeds `skip_for_changelog` (lines 332-335): files changed (a nonempty set) and
every changed file matches some ignore pattern. -/
def skipForChangelog (changed : List String) : Bool :=
  !changed.isEmpty &&
    changed.all fun f => changelogIgnorePatterns.any fun pat => fnmatchcase f pat

/-- The commit subject and optional error tag (lines 338-343): first message
line, stripped; a leading "-" is dropped and the rest left-stripped; an
empty result becomes the placeholder text with the
"empty commit log subject" error tag. -/
def commitSubjectOf (c : Commit) : String × Option String :=
  let s0 := pyStrip ((pySplit '\n' c.message).headD "")
  let s1 := if startsWithDash s0 then pyLstrip (pyDropOne s0) else s0
  if s1 = "" then
    ("RPMAUTOSPEC: empty commit log subject after stripping",
     some "empty commit log subject")
  else (s1, none)

/-- The changelog entry header (lines 289-293): author, UTC date and the
epoch-version/release-complete pair already recorded in the commit's partial
result by the release-number visitor (a `None` epoch-version renders as
"None" in the f-string). -/
def changelogHeader (c : Commit) (res : CommitResult) : String :=
  let author := c.authorName ++ " <" ++ c.authorEmail ++ ">"
  let date := formatCommitDate c.commitTime
  let evr := pyShow res.epochVersion ++ "-" ++ res.releaseComplete
  "* " ++ date ++ " " ++ author ++ " " ++ evr

/-- Phase 2 of `changelog_visitor` (lines 285-351), branching exactly as the
source: no spec file yields an empty sequence; an unresolvable merge yields
the single error-tagged synthetic entry; a changed changelog yields a single
entry holding the blob content (or the "changelog file removed" synthetic
entry when the blob is gone); otherwise the previous changelog is inherited
from the followed parent and, unless every changed file is ignorable, a new
entry synthesized from the commit subject is prepended. -/
def clogChangelogOf (repo : Repo) (c : Commit) (p1 : ClogP1) (res : CommitResult)
    (parentResults : List (Option CommitResult)) : List ChangelogEntry :=
  let header := changelogHeader c res
  if !p1.specfilePresent then
    []
  else if p1.mergeUnresolvable then
    [{ commitId := c.id,
       data := header ++ "\n- RPMAUTOSPEC: unresolvable merge",
       error := some "unresolvable merge" }]
  else if p1.changelogChanged then
    match changelogBlob repo c.tree with
    | some blob => [{ commitId := c.id, data := repo.blobData blob }]
    | none =>
      [{ commitId := c.id,
         data := header ++ "\n- RPMAUTOSPEC: changelog file removed",
         error := some "changelog file removed" }]
  else
    let previous := inheritedChangelog c p1.parentToFollow parentResults
    let changed := changedFilesOf repo c p1.parentToFollow
    if !skipForChangelog changed then
      let subject := commitSubjectOf c
      let wrapped := textwrapFill 75 "  " ("- " ++ subject.1)
      let entry : ChangelogEntry :=
        { commitId := c.id, data := header ++ "\n" ++ wrapped, error := subject.2 }
      entry :: previous
    else
      previous

/-- Phase 2 of the changelog visitor as a whole: every branch of the source
assigns `commit_result["changelog"]` and leaves the rest of the partial
result untouched. -/
def clogPhase2 (repo : Repo) (c : Commit) (p1 : ClogP1) (res : CommitResult)
    (parentResults : List (Option CommitResult)) : CommitResult :=
  { res with changelog := clogChangelogOf repo c p1 res parentResults }

/-- The phase-2 half of a suspended visitor coroutine: from the commit's
partial result and the ordered parent results to the commit's result. -/
def Phase2Fun : Type :=
  CommitResult → List (Option CommitResult) → CommitResult

/-- A visitor, reframed from the source's generator into its two ordinary
phases: applied to a commit and the children-must-continue flag it returns
the phase-1 `must_continue` boolean together with the suspended phase-2
computation. -/
def Visitor : Type :=
  Commit → Bool → Bool × Phase2Fun

/-- The `release_number_visitor` as a `Visitor`. -/
def releaseNumberVisitor (repo : Repo) (nm : String) : Visitor := fun c cmc =>
  let p1 := relPhase1 repo nm c cmc
  (p1.mustContinue, fun res parentResults => relPhase2 p1 res parentResults)

/-- The `changelog_visitor` as a `Visitor`. -/
def changelogVisitor (repo : Repo) (nm : String) : Visitor := fun c cmc =>
  let p1 := clogPhase1 repo nm c cmc
  (p1.mustContinue, fun res parentResults => clogPhase2 repo c p1 res parentResults)

/-- The visitor list the CLI passes to `run` (release-number first, so the
changelog visitor can read its fields for the same commit). -/
def builtinVisitors (repo : Repo) (nm : String) : List Visitor :=
  [releaseNumberVisitor repo nm, changelogVisitor repo nm]

/-- The `commit_children` map of `_run_on_history` (lines 370-373): the
commits of the reachability walk having the given commit among their
parents.  The source accumulates them into per-parent lists; their order and
multiplicity only feed an all-quantified membership test and a boolean
disjunction, so the filtered walk list is an equivalent representation. -/
def commitChildren (walkList : List Commit) (pid : Nat) : List Nat :=
  (walkList.filter fun c => c.parents.contains pid).map Commit.id

/-- The mutable state of the discovery pass: the created coroutines and their
phase-1 decisions keyed by commit id (`commit_coroutines` and
`commit_coroutines_must_continue`, newest first), the queue of branch heads
still to process, and the finished branches in creation order, each listed
newest commit first. -/
structure DiscState where
  coroutines : List (Nat × List Phase2Fun)
  mustCont : List (Nat × List Bool)
  branchHeads : List Nat
  branches : List (List Nat)

/-- The inner `while True` of the discovery pass (lines 387-443), walking a
first-parent chain from `cid` and accumulating the branch:

* a commit already holding coroutines ends the branch;
* the head commit gets all-true children flags; any other commit defers the
  whole remainder (re-queuing itself as a branch head, dropping an empty
  branch) until all its known children are discovered, and otherwise gets
  the per-visitor disjunction of its children's phase-1 decisions;
* the visitors run their phase 1, the coroutines and decisions are recorded
  and the commit is appended to the branch;
* the chain ends when no visitor wants to continue or there is no parent;
  otherwise the non-first parents not yet discovered become new branch heads
  and the walk follows the first parent. -/
def walkChain (repo : Repo) (visitors : List Visitor) (headId : Nat)
    (childrenOf : Nat → List Nat) :
    Nat → DiscState → Nat → List Nat → DiscState
  | 0, st, _, branch => { st with branches := st.branches ++ [branch] }
  | fuel + 1, st, cid, branch =>
    if (st.coroutines.lookup cid).isSome then
      { st with branches := st.branches ++ [branch] }
    else
      let childrenVisitorsMustContinue : Option (List Bool) :=
        if cid = headId then some (visitors.map fun _ => true)
        else
          let kids := childrenOf cid
          if kids.all (fun k => (st.coroutines.lookup k).isSome) then
            some ((List.range visitors.length).map fun vi =>
              kids.foldl
                (fun mc k => mc || (((st.mustCont.lookup k).getD []).getD vi false))
                false)
          else none
      match childrenVisitorsMustContinue with
      | none =>
        { st with
          branchHeads := st.branchHeads ++ [cid]
          branches := if branch = [] then st.branches else st.branches ++ [branch] }
      | some cvmc =>
        let c := repo.commit cid
        let pairs := List.zipWith (fun v b => v c b) visitors cvmc
        let st2 : DiscState :=
          { st with
            coroutines := (cid, pairs.map Prod.snd) :: st.coroutines
            mustCont := (cid, pairs.map Prod.fst) :: st.mustCont }
        let branch2 := branch ++ [cid]
        match c.parents with
        | [] => { st2 with branches := st2.branches ++ [branch2] }
        | p0 :: prest =>
          if (pairs.map Prod.fst).any id then
            walkChain repo visitors headId childrenOf fuel
              { st2 with
                branchHeads := st2.branchHeads ++
                  prest.filter fun p => (st2.coroutines.lookup p).isNone }
              p0 branch2
          else
            { st2 with branches := st2.branches ++ [branch2] }

/-- The outer `while branch_heads` of the discovery pass (lines 381-443):
pop the next branch head and walk its first-parent chain. -/
def discoverAll (repo : Repo) (visitors : List Visitor) (headId : Nat)
    (childrenOf : Nat → List Nat) : Nat → DiscState → DiscState
  | 0, st => st
  | fuel + 1, st =>
    match st.branchHeads with
    | [] => st
    | h :: rest =>
      discoverAll repo visitors headId childrenOf fuel
        (walkChain repo visitors headId childrenOf (fuel + 1)
          { st with branchHeads := rest } h [])

/-- The resolution pass (lines 452-478) over the discovered branches, here
pre-reversed so each branch lists its oldest commit first (the source pops
from the tail end).  A commit resolves only when every parent is either
already resolved or was never discovered; its visitors' phase-2 computations
are piped over the seeded partial result `{"commit-id": commit.id}` with the
ordered parent results (`visited_results.get(p, {})`, the empty dict being
`none`).  Otherwise the remainder of the branch is re-queued at the back.
The association list `vis` is `visited_results` in insertion order. -/
def resolveLoop (repo : Repo) (coroutines : List (Nat × List Phase2Fun)) :
    Nat → List (List Nat) → List (Nat × CommitResult) → List (Nat × CommitResult)
  | 0, _, vis => vis
  | _ + 1, [], vis => vis
  | fuel + 1, [] :: rest, vis => resolveLoop repo coroutines fuel rest vis
  | fuel + 1, (cid :: brest) :: rest, vis =>
    let c := repo.commit cid
    if c.parents.all (fun p => (vis.lookup p).isSome || (coroutines.lookup p).isNone) then
      let parentResults := c.parents.map fun p => vis.lookup p
      let r := ((coroutines.lookup cid).getD []).foldl
        (fun acc p2 => p2 acc parentResults) { commitId := cid }
      resolveLoop repo coroutines fuel (brest :: rest) (vis ++ [(cid, r)])
    else
      resolveLoop repo coroutines fuel (rest ++ [cid :: brest]) vis

/-- The finished discovery pass of `_run_on_history` for a head commit:
branch heads start at the head, everything else empty. -/
def discoveryOf (repo : Repo) (visitors : List Visitor) (headId : Nat)
    (fuel : Nat) : DiscState :=
  discoverAll repo visitors headId (commitChildren (repo.walk headId)) fuel
    { coroutines := [], mustCont := [], branchHeads := [headId], branches := [] }

/-- Embeds `PkgHistoryProcessor._run_on_history`: discovery pass then resolution
pass, returning `visited_results` in resolution order.  Both Python loops
re-queue work instead of blocking, so they are bounded here by an explicit
fuel. -/
def runOnHistory (repo : Repo) (visitors : List Visitor) (headId : Nat)
    (fuel : Nat) : List (Nat × CommitResult) :=
  let st := discoveryOf repo visitors headId fuel
  resolveLoop repo st.coroutines fuel (st.branches.map List.reverse) []

/-- Embeds `PkgHistoryProcessor.run` with `all_results=True` and the two built-in
visitors, as the CLI subcommand invokes the engine. -/
def runAllResults (repo : Repo) (nm : String) (headId : Nat) (fuel : Nat) :
    List (Nat × CommitResult) :=
  runOnHistory repo (builtinVisitors repo nm) headId fuel

/-- Modelled from the spec: "release-number = 1 + max(parent.release-number
for parent in parents if parent.epoch-version == this.epoch-version,
default=0)" — the resolved parent results are filtered to those sharing the
commit's epoch-version and one plus the Python max (default 0) of their
release numbers is taken. -/
def specReleaseNumber (ev : Option String)
    (parentResults : List (Option CommitResult)) : Nat :=
  1 + pyMaxD 0
    (((parentResults.filterMap id).filter fun r => r.epochVersion == ev).map
      CommitResult.releaseNumber)

/-- Phase-1 state of a commit with epoch-version "1.0" and default flags,
for the claim C1 witness. -/
def c1P1 : RelP1 :=
  { epochVersion := some "1.0", prerelease := none, base := 1,
    tagString := "", mustContinue := true }

/-- Parent results with release numbers 3 and 5 sharing epoch-version "1.0",
for the claim C1 witness. -/
def c1Parents : List (Option CommitResult) :=
  [some { commitId := 7, epochVersion := some "1.0", releaseNumber := 3 },
   some { commitId := 8, epochVersion := some "1.0", releaseNumber := 5 }]

/-- Modelled from the spec: phase 1 of the release-number visitor continues
unconditionally when the commit yields no epoch-version, and otherwise
continues exactly when at least one parent shares the commit's
epoch-version. -/
def specRelMustContinue (repo : Repo) (nm : String) (c : Commit) : Bool :=
  match verflagsOf repo nm c with
  | none => true
  | some vf =>
    if vf.epochVersion = "" then true
    else
      c.parents.any fun p =>
        match verflagsOf repo nm (repo.commit p) with
        | some pvf => vf.epochVersion == pvf.epochVersion
        | none => false

/-- The commit of the claim C7 witness: its tree holds no spec file. -/
def cNoSpec : Commit :=
  { id := 31, parents := [], tree := 310, authorName := "A",
    authorEmail := "a@b", commitTime := 0, message := "no spec yet" }

/-- Claim C7 witness repository: no tree entry at all, every query fails. -/
def repoNoSpec : Repo :=
  { commit := fun _ => cNoSpec
    treeEntry := fun _ _ => none
    blobData := fun _ => ""
    diffPaths := fun _ _ => []
    diffEmpty := fun _ => []
    walk := fun _ => [cNoSpec]
    rpmQuery := fun _ => none }

/-- The merge commit of the claim C5 counterexample repository: two parents
with trees differing from its own, the changelog blob shared with the first
parent, and no spec file anywhere. -/
def cM5 : Commit :=
  { id := 51, parents := [52, 53], tree := 510, authorName := "A",
    authorEmail := "a@b", commitTime := 0, message := "merge" }

/-- First parent of `cM5` (same changelog blob, different tree). -/
def cP52 : Commit :=
  { id := 52, parents := [], tree := 520, authorName := "A",
    authorEmail := "a@b", commitTime := 0, message := "p1" }

/-- Second parent of `cM5` (different changelog blob, different tree). -/
def cP53 : Commit :=
  { id := 53, parents := [], tree := 530, authorName := "A",
    authorEmail := "a@b", commitTime := 0, message := "p2" }

/-- Claim C5 counterexample repository: no tree holds "pkg.spec". -/
def repoC5 : Repo :=
  { commit := fun i => if i = 52 then cP52 else if i = 53 then cP53 else cM5
    treeEntry := fun t p =>
      if p = "changelog" then
        if t = 510 ∨ t = 520 then some 200 else if t = 530 then some 201 else none
      else none
    blobData := fun _ => ""
    diffPaths := fun _ _ => []
    diffEmpty := fun _ => []
    walk := fun _ => [cM5, cP52, cP53]
    rpmQuery := fun _ => none }

/-- The merge commit of the claim C5 witness repository: as `cM5` but with a
spec file present in its tree. -/
def cM5w : Commit :=
  { id := 61, parents := [62, 63], tree := 610, authorName := "A",
    authorEmail := "a@b", commitTime := 0, message := "merge" }

/-- First parent of `cM5w` (same changelog blob, different tree). -/
def cP62 : Commit :=
  { id := 62, parents := [], tree := 620, authorName := "A",
    authorEmail := "a@b", commitTime := 0, message := "p1" }

/-- Second parent of `cM5w` (no changelog blob, different tree). -/
def cP63 : Commit :=
  { id := 63, parents := [], tree := 630, authorName := "A",
    authorEmail := "a@b", commitTime := 0, message := "p2" }

/-- Claim C5 witness repository: the merge's tree holds "pkg.spec". -/
def repoC5w : Repo :=
  { commit := fun i => if i = 62 then cP62 else if i = 63 then cP63 else cM5w
    treeEntry := fun t p =>
      if p = "changelog" then
        if t = 610 ∨ t = 620 then some 250 else none
      else if p = "pkg.spec" ∧ t = 610 then some 700
      else none
    blobData := fun _ => ""
    diffPaths := fun _ _ => []
    diffEmpty := fun _ => []
    walk := fun _ => [cM5w, cP62, cP63]
    rpmQuery := fun _ => none }

/-- The single-parent empty-diff commit of the claim C2 counterexample: its
tree equals its parent's tree, so nothing changed at all. -/
def cE2 : Commit :=
  { id := 81, parents := [82], tree := 810, authorName := "A",
    authorEmail := "a@b", commitTime := 0, message := "Bump release" }

/-- Parent of `cE2`, holding the identical tree. -/
def cP82 : Commit :=
  { id := 82, parents := [], tree := 810, authorName := "A",
    authorEmail := "a@b", commitTime := 0, message := "p" }

/-- Claim C2 counterexample repository: an empty diff between `cE2` and its
parent, spec file present, changelog untouched. -/
def repoC2x : Repo :=
  { commit := fun i => if i = 82 then cP82 else cE2
    treeEntry := fun t p => if p = "pkg.spec" ∧ t = 810 then some 701 else none
    blobData := fun _ => ""
    diffPaths := fun _ _ => []
    diffEmpty := fun _ => []
    walk := fun _ => [cE2, cP82]
    rpmQuery := fun _ => none }

/-- Parent result of `cP82` carrying the two inherited entries. -/
def prE2 : CommitResult :=
  { commitId := 82,
    changelog := [{ commitId := 80, data := "A" }, { commitId := 79, data := "B" }] }

/-- The commit of the claim C2 witness: it changes only "gating.yaml". -/
def cG2 : Commit :=
  { id := 71, parents := [72], tree := 710, authorName := "A",
    authorEmail := "a@b", commitTime := 0, message := "gating" }

/-- Parent of `cG2`. -/
def cP72 : Commit :=
  { id := 72, parents := [], tree := 720, authorName := "A",
    authorEmail := "a@b", commitTime := 0, message := "p" }

/-- Claim C2 witness repository: the diff between `cG2` and its parent is
exactly ["gating.yaml"]. -/
def repoC2w : Repo :=
  { commit := fun i => if i = 72 then cP72 else cG2
    treeEntry := fun t p => if p = "pkg.spec" ∧ (t = 710 ∨ t = 720) then some 702 else none
    blobData := fun _ => ""
    diffPaths := fun a b => if a = 720 ∧ b = 710 then ["gating.yaml"] else []
    diffEmpty := fun _ => []
    walk := fun _ => [cG2, cP72]
    rpmQuery := fun _ => none }

/-- Parent result of `cP72` carrying one inherited entry. -/
def prG2 : CommitResult :=
  { commitId := 72, changelog := [{ commitId := 72, data := "G" }] }

/-- The "ours"-merge commit of the claim C3 failing input: its first parent
holds the identical tree, the changelog artifact is unchanged everywhere,
and the spec file is present. -/
def cM3 : Commit :=
  { id := 91, parents := [92, 93], tree := 910, authorName := "A",
    authorEmail := "a@b", commitTime := 0, message := "merge ours" }

/-- First parent of `cM3`: same tree as the merge. -/
def cP92 : Commit :=
  { id := 92, parents := [], tree := 910, authorName := "A",
    authorEmail := "a@b", commitTime := 0, message := "p1" }

/-- Second parent of `cM3`: a different tree. -/
def cP93 : Commit :=
  { id := 93, parents := [], tree := 930, authorName := "A",
    authorEmail := "a@b", commitTime := 0, message := "p2" }

/-- Claim C3 failing-input repository. -/
def repoC3 : Repo :=
  { commit := fun i => if i = 92 then cP92 else if i = 93 then cP93 else cM3
    treeEntry := fun t p =>
      if p = "pkg.spec" ∧ (t = 910 ∨ t = 930) then some 700
      else if p = "changelog" ∧ (t = 910 ∨ t = 930) then some 250
      else none
    blobData := fun _ => ""
    diffPaths := fun _ _ => []
    diffEmpty := fun _ => []
    walk := fun _ => [cM3, cP92, cP93]
    rpmQuery := fun _ => none }

/-- The resolved result of the followed parent `cP92`, carrying one
changelog entry that the merge should inherit. -/
def resP92 : CommitResult :=
  { commitId := 92, changelog := [{ commitId := 92, data := "C" }] }

/-- The resolved result of the other parent `cP93`. -/
def resP93 : CommitResult :=
  { commitId := 93 }

/-- The single commit of the claim C9 witness repository. -/
def cD9 : Commit :=
  { id := 5, parents := [], tree := 1, authorName := "A",
    authorEmail := "a@b", commitTime := 0, message := "only" }

/-- Claim C9 witness repository. -/
def repoD9 : Repo :=
  { commit := fun _ => cD9
    treeEntry := fun _ _ => none
    blobData := fun _ => ""
    diffPaths := fun _ _ => []
    diffEmpty := fun _ => []
    walk := fun _ => [cD9]
    rpmQuery := fun _ => none }

/-- A phase-2 computation that never touches the seeded "commit-id". -/
def Preserves2 (p2 : Phase2Fun) : Prop :=
  ∀ res parentResults, (p2 res parentResults).commitId = res.commitId

/-- Every phase-2 closure recorded in a coroutine table preserves the seeded
commit id. -/
def TablePreserves (tbl : List (Nat × List Phase2Fun)) : Prop :=
  ∀ e ∈ tbl, ∀ p2 ∈ e.2, Preserves2 p2

/-- Every visitor of a list yields only commit-id-preserving phase-2
computations. -/
def VisitorsPreserve (visitors : List Visitor) : Prop :=
  ∀ v ∈ visitors, ∀ c b2, Preserves2 (v c b2).2

/-- Checks that every commit of a trace is preceded (in `seen`, accumulated
front-to-back) by all of its discovered parents. -/
def orderOKB (disc : Nat → Bool) (parentsOf : Nat → List Nat) :
    List Nat → List Nat → Bool
  | _, [] => true
  | seen, c :: rest =>
    ((parentsOf c).all fun p => !disc p || decide (p ∈ seen)) &&
      orderOKB disc parentsOf (c :: seen) rest

/-- The discovery-pass invariant: the commits accumulated in finished
branches plus the branch in progress are pairwise distinct, and each of them
already holds coroutines. -/
def DiscOK (st : DiscState) (branch : List Nat) : Prop :=
  (st.branches.flatten ++ branch).Nodup ∧
    ∀ x ∈ st.branches.flatten ++ branch, (st.coroutines.lookup x).isSome = true

/-- Head commit of the claim C8 counterexample: its epoch-version differs
from its parent's and its changelog blob differs from its parent's, so both
built-in visitors decide not to continue. -/
def cH8 : Commit :=
  { id := 41, parents := [42], tree := 400, authorName := "A",
    authorEmail := "a@b", commitTime := 0, message := "head" }

/-- Parent of `cH8`, reachable but never discovered. -/
def cP42 : Commit :=
  { id := 42, parents := [], tree := 410, authorName := "A",
    authorEmail := "a@b", commitTime := 0, message := "root" }

/-- Claim C8 counterexample repository. -/
def repoC8 : Repo :=
  { commit := fun i => if i = 42 then cP42 else cH8
    treeEntry := fun t p =>
      if p = "pkg.spec" then
        if t = 400 then some 500 else if t = 410 then some 501 else none
      else if p = "changelog" then
        if t = 400 then some 520 else if t = 410 then some 521 else none
      else none
    blobData := fun _ => "old changelog"
    diffPaths := fun _ _ => []
    diffEmpty := fun _ => []
    walk := fun _ => [cH8, cP42]
    rpmQuery := fun b =>
      if b = 500 then some ("1.0\nE_S_P0_B")
      else if b = 501 then some ("2.0\nE_S_P0_B")
      else none }

/-! ## Theorems -/

theorem pyMaxD_zero (l : List Nat) : pyMaxD 0 l = l.foldl max 0 := by
  cases l with
  | nil => rfl
  | cons x xs => simp [pyMaxD, List.foldl_cons, Nat.zero_max]

theorem foldl_max_contrib (ev : Option String) :
    ∀ (pres : List (Option CommitResult)) (a : Nat),
      (pres.map (relParentContribution ev)).foldl max a =
        (((pres.filterMap id).filter fun r => r.epochVersion == ev).map
          CommitResult.releaseNumber).foldl max a := by
  intro pres
  induction pres with
  | nil => intro a; rfl
  | cons h t ih =>
    intro a
    cases h with
    | none =>
      simp only [List.map_cons, relParentContribution, List.foldl_cons,
        List.filterMap_cons, id, Nat.max_zero]
      exact ih a
    | some r =>
      cases hbe : r.epochVersion == ev with
      | false =>
        have hne : ¬(ev = r.epochVersion) := by
          intro h
          rw [h] at hbe
          simp at hbe
        simp only [List.map_cons, relParentContribution, List.foldl_cons,
          List.filterMap_cons, id, List.filter_cons, hbe, if_neg hne,
          Nat.max_zero, Bool.false_eq_true, ite_false]
        exact ih a
      | true =>
        have heq : ev = r.epochVersion := (beq_iff_eq.mp hbe).symm
        simp only [List.map_cons, relParentContribution, List.foldl_cons,
          List.filterMap_cons, id, List.filter_cons, hbe, if_pos heq, ite_true]
        exact ih (max a r.releaseNumber)

/-- Claim C1: the release number computed in phase 2 of the release-number
visitor equals one plus the maximum of the release numbers of those parents
whose epoch-version equals the commit's (0 when no parent matches), and is
therefore always at least 1. -/
theorem c1_release_number (p1 : RelP1) (res : CommitResult)
    (parentResults : List (Option CommitResult)) :
    (relPhase2 p1 res parentResults).releaseNumber =
        specReleaseNumber p1.epochVersion parentResults ∧
      1 ≤ (relPhase2 p1 res parentResults).releaseNumber := by
  constructor
  · show pyMaxD 0 (parentResults.map (relParentContribution p1.epochVersion)) + 1 = _
    rw [specReleaseNumber, pyMaxD_zero, pyMaxD_zero, foldl_max_contrib, Nat.add_comm]
  · exact Nat.le_add_left 1 _

/-- Claim C1 witness: a merge commit whose two parents share its
epoch-version with release numbers 3 and 5 gets release number 6. -/
theorem c1_release_number_witness :
    (relPhase2 c1P1 { commitId := 9 } c1Parents).releaseNumber = 6 := by
  rw [(c1_release_number c1P1 { commitId := 9 } c1Parents).1]
  decide

/-- Claim C4: the boolean yielded by phase 1 of the changelog visitor is true
exactly when the changelog did not change, the commit is not an unresolvable
merge, the spec file is present, and some already-visited child wants to
continue. -/
theorem c4_changelog_must_continue (repo : Repo) (nm : String) (c : Commit) (b : Bool) :
    (clogPhase1 repo nm c b).mustContinue = true ↔
      (changelogChanged repo c = false ∧ mergeUnresolvable repo c = false ∧
        specfilePresent repo nm c = true ∧ b = true) := by
  simp only [clogPhase1, Bool.and_eq_true, Bool.not_eq_true',
    Bool.or_eq_false_iff]
  tauto

theorem contains_filterMap_epoch (f : Nat → Option VerFlags) (l : List Nat) (e : String) :
    (l.filterMap fun p => (f p).map VerFlags.epochVersion).contains e =
      (l.any fun p =>
        match f p with
        | some pvf => e == pvf.epochVersion
        | none => false) := by
  induction l with
  | nil => rfl
  | cons p t ih =>
    rw [List.filterMap_cons, List.any_cons]
    cases hf : f p with
    | none =>
      simp only [Option.map_none', Bool.false_or]
      exact ih
    | some pvf =>
      simp only [Option.map_some', List.contains_cons]
      rw [ih]

/-- Claim C6: phase 1 of the release-number visitor forces continuation when
the commit's metadata yields no epoch-version, and otherwise continues
exactly when at least one parent's epoch-version equals the commit's. -/
theorem c6_release_must_continue (repo : Repo) (nm : String) (c : Commit) (b : Bool) :
    (relPhase1 repo nm c b).mustContinue = specRelMustContinue repo nm c := by
  have key := contains_filterMap_epoch
    (fun p => verflagsOf repo nm (repo.commit p)) c.parents
  simp only [relPhase1, specRelMustContinue, parentEpochVersions]
  cases hv : verflagsOf repo nm c with
  | none => simp [pyTruthyStr]
  | some vf =>
    by_cases he : vf.epochVersion = ""
    · simp [pyTruthyStr, he]
    · simp only [pyTruthyStr, Option.map_some', Option.getD_some, he,
        decide_False, Bool.not_false, if_true, if_neg he]
      exact key vf.epochVersion

/-- Claim C7: the metadata query returns `None` without raising whenever the
spec file is absent (from the queried path or from the commit's tree) or the
external `rpm` invocation fails, and such a `None` is treated by the
release-number visitor as an unknown version that forces continued
traversal. -/
theorem c7_metadata_soft_failure (out : Option String) (repo : Repo) (nm : String)
    (c : Commit) (b : Bool) :
    getRpmverflags false out = .ok none ∧
      getRpmverflags true none = .ok none ∧
      (repo.treeEntry c.tree (nm ++ ".spec") = none →
        getRpmverflagsForCommit repo nm c = .ok none) ∧
      (∀ blob, repo.treeEntry c.tree (nm ++ ".spec") = some blob →
        repo.rpmQuery blob = none → getRpmverflagsForCommit repo nm c = .ok none) ∧
      (verflagsOf repo nm c = none →
        (relPhase1 repo nm c b).mustContinue = true ∧
          (relPhase1 repo nm c b).epochVersion = none) := by
  refine ⟨rfl, rfl, ?_, ?_, ?_⟩
  · intro h
    simp [getRpmverflagsForCommit, h]
  · intro blob hblob hq
    simp [getRpmverflagsForCommit, hblob, hq, getRpmverflags]
  · intro h
    unfold relPhase1
    simp [h, pyTruthyStr]

/-- Claim C7 witness: at a commit without a spec file the query returns
`None` and the release-number visitor continues with an unknown version. -/
theorem c7_metadata_soft_failure_witness :
    getRpmverflags false (some "1.0\nE_S_P0_B") = .ok none ∧
      getRpmverflagsForCommit repoNoSpec "pkg" cNoSpec = .ok none ∧
      (relPhase1 repoNoSpec "pkg" cNoSpec true).mustContinue = true ∧
      (relPhase1 repoNoSpec "pkg" cNoSpec true).epochVersion = none := by
  have h := c7_metadata_soft_failure (some "1.0\nE_S_P0_B") repoNoSpec "pkg" cNoSpec true
  have h5 := h.2.2.2.2 rfl
  exact ⟨h.1, h.2.2.1 rfl, h5.1, h5.2⟩

theorem changelogChanged_eq_false_of_shared_blob (repo : Repo) (c : Commit)
    (h2 : 1 ≤ c.parents.length)
    (hcl : ∃ p ∈ c.parents,
      changelogBlob repo c.tree = changelogBlob repo (repo.commit p).tree) :
    changelogChanged repo c = false := by
  obtain ⟨p, hp, heq⟩ := hcl
  unfold changelogChanged
  cases hpar : c.parents with
  | nil =>
    rw [hpar] at h2
    simp at h2
  | cons q qs =>
    rw [hpar] at hp
    simp only [Bool.not_eq_false', List.any_eq_true]
    exact ⟨p, hp, by simp [heq]⟩

theorem mergeUnresolvable_eq_true (repo : Repo) (c : Commit)
    (h2 : 2 ≤ c.parents.length)
    (hnt : ∀ p ∈ c.parents, ¬((repo.commit p).tree = c.tree))
    (hcl : ∃ p ∈ c.parents,
      changelogBlob repo c.tree = changelogBlob repo (repo.commit p).tree) :
    mergeUnresolvable repo c = true := by
  have hfind : ((c.parents.map repo.commit).find? fun p => c.tree == p.tree) = none := by
    apply List.find?_eq_none.mpr
    intro x hx
    obtain ⟨p, hp, rfl⟩ := List.mem_map.mp hx
    simp only [beq_eq_false_iff_ne, ne_eq, Bool.not_eq_true]
    intro h
    exact hnt p hp h.symm
  have hch := changelogChanged_eq_false_of_shared_blob repo c (by omega) hcl
  unfold mergeUnresolvable
  rw [if_neg (by omega), hfind]
  simp [hch]

/-- Claim C5 (amended): for a merge commit whose parents' trees all differ
from the merge's tree, whose changelog artifact is unchanged from at least
one parent, and whose tree holds the build-description file, phase 2
produces a single changelog entry tagged "unresolvable merge", discarding
all ancestry. -/
theorem c5_unresolvable_merge_entry (repo : Repo) (nm : String) (c : Commit) (b : Bool)
    (res : CommitResult) (parentResults : List (Option CommitResult))
    (h2 : 2 ≤ c.parents.length)
    (hnt : ∀ p ∈ c.parents, ¬((repo.commit p).tree = c.tree))
    (hcl : ∃ p ∈ c.parents,
      changelogBlob repo c.tree = changelogBlob repo (repo.commit p).tree)
    (hsp : specfilePresent repo nm c = true) :
    ((clogPhase2 repo c (clogPhase1 repo nm c b) res parentResults).changelog).map
        ChangelogEntry.error = [some "unresolvable merge"] := by
  have hmu := mergeUnresolvable_eq_true repo c h2 hnt hcl
  simp [clogPhase2, clogChangelogOf, clogPhase1, hsp, hmu]

/-- Claim C5 counterexample: a merge satisfying all the claim's premises (two
parents, neither sharing the merge's tree, the changelog artifact unchanged
from one parent) whose tree lacks the build-description file produces an
empty changelog rather than a single "unresolvable merge" entry. -/
theorem c5_counterexample :
    (2 ≤ cM5.parents.length ∧
      (∀ p ∈ cM5.parents, ¬((repoC5.commit p).tree = cM5.tree)) ∧
      changelogBlob repoC5 cM5.tree = changelogBlob repoC5 (repoC5.commit 52).tree ∧
      52 ∈ cM5.parents) ∧
    (clogPhase2 repoC5 cM5 (clogPhase1 repoC5 "pkg" cM5 true) { commitId := 51 }
      [some { commitId := 52 }, some { commitId := 53 }]).changelog = [] := by
  decide

/-- Claim C5 witness: the amended statement at a concrete unresolvable merge
with the spec file present. -/
theorem c5_unresolvable_merge_entry_witness :
    ((clogPhase2 repoC5w cM5w (clogPhase1 repoC5w "pkg" cM5w true) { commitId := 61 }
      [some { commitId := 62 }, some { commitId := 63 }]).changelog).map
        ChangelogEntry.error = [some "unresolvable merge"] :=
  c5_unresolvable_merge_entry repoC5w "pkg" cM5w true { commitId := 61 }
    [some { commitId := 62 }, some { commitId := 63 }]
    (by decide) (by decide) ⟨62, by decide, by decide⟩ (by decide)

/-- Claim C2 (amended): for a commit with a single parent whose changelog
artifact did not change, with the build-description file present, and whose
diff against the followed parent is nonempty with every changed path
matching an ignore pattern, phase 2 inherits the parent's changelog sequence
unchanged, prepending no entry.  (A commit with at least one changed path
and a followed parent is necessarily a non-merge commit: a followed merge
parent shares the merge's tree, giving an empty diff.) -/
theorem c2_ignored_changes_inherit (repo : Repo) (nm : String) (c : Commit) (b : Bool)
    (res pr : CommitResult) (prest : List (Option CommitResult)) (pid : Nat)
    (hpar : c.parents = [pid])
    (hcl : changelogBlob repo c.tree = changelogBlob repo (repo.commit pid).tree)
    (hsp : specfilePresent repo nm c = true)
    (hne : ¬(changedFilesOf repo c (some (repo.commit pid)) = []))
    (hig : ∀ f ∈ changedFilesOf repo c (some (repo.commit pid)),
      ∃ pat ∈ changelogIgnorePatterns, fnmatchcase f pat = true) :
    (clogPhase2 repo c (clogPhase1 repo nm c b) res (some pr :: prest)).changelog
      = pr.changelog := by
  have hch : changelogChanged repo c = false :=
    changelogChanged_eq_false_of_shared_blob repo c (by rw [hpar]; simp)
      ⟨pid, by rw [hpar]; exact List.mem_singleton.mpr rfl, hcl⟩
  have hmu : mergeUnresolvable repo c = false := by
    unfold mergeUnresolvable
    rw [if_pos (by rw [hpar]; simp)]
  have hptf : parentToFollow repo c = some (repo.commit pid) := by
    unfold parentToFollow
    rw [hpar]
    simp
  have hskip : skipForChangelog (changedFilesOf repo c (some (repo.commit pid))) = true := by
    unfold skipForChangelog
    have h1 : (changedFilesOf repo c (some (repo.commit pid))).isEmpty = false := by
      cases hF : changedFilesOf repo c (some (repo.commit pid)) with
      | nil => exact absurd hF hne
      | cons x xs => rfl
    have h2 : (changedFilesOf repo c (some (repo.commit pid))).all
        (fun f => changelogIgnorePatterns.any fun pat => fnmatchcase f pat) = true := by
      apply List.all_eq_true.mpr
      intro f hf
      obtain ⟨pat, hpat, hm⟩ := hig f hf
      exact List.any_eq_true.mpr ⟨pat, hpat, hm⟩
    rw [h1, h2]
    rfl
  have hinh : inheritedChangelog c (some (repo.commit pid)) (some pr :: prest)
      = pr.changelog := by
    unfold inheritedChangelog
    rw [hpar]
    rfl
  simp [clogPhase2, clogChangelogOf, clogPhase1, hsp, hmu, hch, hptf, hskip, hinh]

/-- Claim C2 counterexample: a commit whose diff against its only parent is
empty (changelog unchanged, merge trivially resolvable, spec file present)
does not inherit the parent's sequence unchanged — a new entry synthesized
from the commit message is prepended. -/
theorem c2_counterexample :
    (changedFilesOf repoC2x cE2 (some (repoC2x.commit 82)) = [] ∧
      changelogChanged repoC2x cE2 = false ∧
      mergeUnresolvable repoC2x cE2 = false ∧
      specfilePresent repoC2x "pkg" cE2 = true) ∧
    ¬((clogPhase2 repoC2x cE2 (clogPhase1 repoC2x "pkg" cE2 true)
        { commitId := 81, epochVersion := some "1.0", releaseComplete := "3" }
        [some prE2]).changelog = prE2.changelog) ∧
    (clogPhase2 repoC2x cE2 (clogPhase1 repoC2x "pkg" cE2 true)
        { commitId := 81, epochVersion := some "1.0", releaseComplete := "3" }
        [some prE2]).changelog.drop 1 = prE2.changelog := by
  decide

/-- Claim C2 witness: a commit changing only "gating.yaml" inherits its
parent's changelog unchanged — no new entry. -/
theorem c2_ignored_changes_inherit_witness :
    (clogPhase2 repoC2w cG2 (clogPhase1 repoC2w "pkg" cG2 true)
      { commitId := 71 } [some prG2]).changelog = prG2.changelog :=
  c2_ignored_changes_inherit repoC2w "pkg" cG2 true { commitId := 71 } prG2 [] 72
    (by decide) (by decide) (by decide) (by decide) (by decide)

/-- Claim C3, evaluated at the failing input: phase 1 does follow the first
parent whose tree equals the merge's tree (`cP92`), but in phase 2 the
"commit-id" value of a parent result is compared against the
`parent_to_follow` commit object itself (source line 320), a comparison that
is constantly false, so the followed parent's changelog `[C]` is never
selected: the scan yields the empty sequence and the merge's changelog holds
only the freshly synthesized entry. -/
theorem c3_merge_inheritance_lost :
    ((clogPhase1 repoC3 "pkg" cM3 true).parentToFollow = some cP92 ∧
      cP92.tree = cM3.tree ∧ resP92.changelog ≠ []) ∧
    findInheritedChangelog (some cP92) [some resP92, some resP93] = [] ∧
    (clogPhase2 repoC3 cM3 (clogPhase1 repoC3 "pkg" cM3 true)
        { commitId := 91, epochVersion := some "1.0", releaseComplete := "2" }
        [some resP92, some resP93]).changelog.length = 1 := by
  decide

theorem lookup_isSome_iff {β : Type _} (l : List (Nat × β)) (k : Nat) :
    (l.lookup k).isSome = true ↔ k ∈ l.map Prod.fst := by
  induction l with
  | nil => simp
  | cons kv t ih =>
    obtain ⟨a, bv⟩ := kv
    rw [List.lookup_cons]
    by_cases h : k = a
    · simp [h]
    · have hb : (k == a) = false := beq_eq_false_iff_ne.mpr h
      simp [hb, ih, h]

theorem lookup_isSome_cons {β : Type _} (l : List (Nat × β)) (k a : Nat) (bv : β)
    (h : (l.lookup k).isSome = true) : (((a, bv) :: l).lookup k).isSome = true := by
  rw [List.lookup_cons]
  cases hb : k == a
  · exact h
  · rfl

theorem lookup_cons_self {β : Type _} (l : List (Nat × β)) (k : Nat) (bv : β) :
    (((k, bv) :: l).lookup k).isSome = true := by
  rw [List.lookup_cons]
  simp

theorem mem_of_lookup_eq_some {β : Type _} {l : List (Nat × β)} {k : Nat} {v : β}
    (h : l.lookup k = some v) : (k, v) ∈ l := by
  induction l with
  | nil => simp [List.lookup_nil] at h
  | cons kv t ih =>
    obtain ⟨a, bv⟩ := kv
    rw [List.lookup_cons] at h
    by_cases hk : k = a
    · subst hk
      simp only [beq_self_eq_true] at h
      obtain rfl : bv = v := by simpa using h
      exact List.mem_cons_self _ _
    · have hb : (k == a) = false := beq_eq_false_iff_ne.mpr hk
      rw [hb] at h
      exact List.mem_cons_of_mem _ (ih h)

theorem all_bool_congr {α : Type _} (p q : α → Bool) :
    ∀ l : List α, (∀ x ∈ l, p x = q x) → l.all p = l.all q := by
  intro l
  induction l with
  | nil => intro _; rfl
  | cons y ys ih =>
    intro hpq
    have hy := hpq y (List.mem_cons_self y ys)
    have hrest := ih fun x hx => hpq x (List.mem_cons_of_mem y hx)
    simp only [List.all_cons, hy, hrest]

theorem mem_zipWith {α β γ : Type _} {f : α → β → γ} :
    ∀ {l1 : List α} {l2 : List β} {x : γ}, x ∈ List.zipWith f l1 l2 →
      ∃ a ∈ l1, ∃ b2 ∈ l2, x = f a b2 := by
  intro l1
  induction l1 with
  | nil => intro l2 x hx; simp at hx
  | cons a t ih =>
    intro l2 x hx
    cases l2 with
    | nil => simp at hx
    | cons b2 t2 =>
      rw [List.zipWith_cons_cons] at hx
      rcases List.mem_cons.mp hx with h | h
      · exact ⟨a, List.mem_cons_self _ _, b2, List.mem_cons_self _ _, h⟩
      · obtain ⟨a2, ha2, b3, hb3, rfl⟩ := ih h
        exact ⟨a2, List.mem_cons_of_mem _ ha2, b3, List.mem_cons_of_mem _ hb3, rfl⟩

theorem flatten_map_reverse_perm (l : List (List Nat)) :
    ((l.map List.reverse).flatten).Perm l.flatten := by
  induction l with
  | nil => exact List.Perm.refl _
  | cons b t ih =>
    simp only [List.map_cons, List.flatten_cons]
    exact (List.reverse_perm b).append ih

/-- Claim C9: the engine is deterministic — given pointwise identical answers
from the git accessor and the metadata query tool, two runs over the same
head with the same visitors (in particular with the built-in visitor pair)
produce identical per-commit result mappings. -/
theorem c9_engine_deterministic (R1 R2 : Repo) (visitors : List Visitor) (nm : String)
    (headId fuel : Nat)
    (hc : ∀ i, R1.commit i = R2.commit i)
    (ht : ∀ t p, R1.treeEntry t p = R2.treeEntry t p)
    (hb : ∀ bl, R1.blobData bl = R2.blobData bl)
    (hd : ∀ a b2, R1.diffPaths a b2 = R2.diffPaths a b2)
    (he : ∀ t, R1.diffEmpty t = R2.diffEmpty t)
    (hw : ∀ h, R1.walk h = R2.walk h)
    (hq : ∀ bl, R1.rpmQuery bl = R2.rpmQuery bl) :
    runOnHistory R1 visitors headId fuel = runOnHistory R2 visitors headId fuel ∧
      runAllResults R1 nm headId fuel = runAllResults R2 nm headId fuel := by
  have hR : R1 = R2 := by
    obtain ⟨c1, t1, b1, d1, e1, w1, q1⟩ := R1
    obtain ⟨c2, t2, b2, d2, e2, w2, q2⟩ := R2
    have h1 : c1 = c2 := funext hc
    have h2 : t1 = t2 := funext fun t => funext (ht t)
    have h3 : b1 = b2 := funext hb
    have h4 : d1 = d2 := funext fun a => funext (hd a)
    have h5 : e1 = e2 := funext he
    have h6 : w1 = w2 := funext hw
    have h7 : q1 = q2 := funext hq
    rw [h1, h2, h3, h4, h5, h6, h7]
  rw [hR]
  exact ⟨rfl, rfl⟩

/-- Claim C9 witness: two runs over the witness repository with identical
accessor answers coincide. -/
theorem c9_engine_deterministic_witness :
    runOnHistory repoD9 (builtinVisitors repoD9 "pkg") 5 8
        = runOnHistory repoD9 (builtinVisitors repoD9 "pkg") 5 8 ∧
      runAllResults repoD9 "pkg" 5 8 = runAllResults repoD9 "pkg" 5 8 :=
  c9_engine_deterministic repoD9 repoD9 (builtinVisitors repoD9 "pkg") "pkg" 5 8
    (fun _ => rfl) (fun _ _ => rfl) (fun _ => rfl) (fun _ _ => rfl)
    (fun _ => rfl) (fun _ => rfl) (fun _ => rfl)

theorem relPhase2_commitId (p1 : RelP1) (res : CommitResult)
    (parentResults : List (Option CommitResult)) :
    (relPhase2 p1 res parentResults).commitId = res.commitId := rfl

theorem clogPhase2_commitId (repo : Repo) (c : Commit) (p1 : ClogP1)
    (res : CommitResult) (parentResults : List (Option CommitResult)) :
    (clogPhase2 repo c p1 res parentResults).commitId = res.commitId := rfl

theorem builtinVisitors_preserve (repo : Repo) (nm : String) :
    VisitorsPreserve (builtinVisitors repo nm) := by
  intro v hv c b2
  rcases List.mem_cons.mp hv with rfl | hv2
  · intro res pres; rfl
  · rcases List.mem_cons.mp hv2 with rfl | hv3
    · intro res pres; rfl
    · simp at hv3

theorem tablePreserves_cons (tbl : List (Nat × List Phase2Fun)) (cid : Nat)
    (p2s : List Phase2Fun) (h : TablePreserves tbl) (hp : ∀ p2 ∈ p2s, Preserves2 p2) :
    TablePreserves ((cid, p2s) :: tbl) := by
  intro e he
  rcases List.mem_cons.mp he with rfl | he2
  · exact hp
  · exact h e he2

theorem zipWith_visitors_preserve (visitors : List Visitor) (hvp : VisitorsPreserve visitors)
    (c : Commit) (cvmc : List Bool) :
    ∀ p2 ∈ (List.zipWith (fun v b2 => v c b2) visitors cvmc).map Prod.snd, Preserves2 p2 := by
  intro p2 hp2
  obtain ⟨pr, hpr, rfl⟩ := List.mem_map.mp hp2
  obtain ⟨v, hv, b2, _, rfl⟩ := mem_zipWith hpr
  exact hvp v hv c b2

theorem walkChain_tablePreserves (repo : Repo) (visitors : List Visitor) (headId : Nat)
    (childrenOf : Nat → List Nat) (hvp : VisitorsPreserve visitors) :
    ∀ fuel st cid branch, TablePreserves st.coroutines →
      TablePreserves
        (walkChain repo visitors headId childrenOf fuel st cid branch).coroutines := by
  intro fuel
  induction fuel with
  | zero => intro st cid branch h; exact h
  | succ n ih =>
    intro st cid branch h
    simp only [walkChain]
    split
    · exact h
    · split
      · exact h
      · split
        · exact tablePreserves_cons _ _ _ h (zipWith_visitors_preserve visitors hvp _ _)
        · split
          · exact ih _ _ _ (tablePreserves_cons _ _ _ h
              (zipWith_visitors_preserve visitors hvp _ _))
          · exact tablePreserves_cons _ _ _ h (zipWith_visitors_preserve visitors hvp _ _)

theorem discoverAll_tablePreserves (repo : Repo) (visitors : List Visitor) (headId : Nat)
    (childrenOf : Nat → List Nat) (hvp : VisitorsPreserve visitors) :
    ∀ fuel st, TablePreserves st.coroutines →
      TablePreserves (discoverAll repo visitors headId childrenOf fuel st).coroutines := by
  intro fuel
  induction fuel with
  | zero => intro st h; exact h
  | succ n ih =>
    intro st h
    simp only [discoverAll]
    split
    · exact h
    · exact ih _ (walkChain_tablePreserves repo visitors headId childrenOf hvp _ _ _ _ h)

theorem foldl_phase2_commitId (parentResults : List (Option CommitResult)) :
    ∀ (p2s : List Phase2Fun), (∀ p2 ∈ p2s, Preserves2 p2) → ∀ init : CommitResult,
      (p2s.foldl (fun acc p2 => p2 acc parentResults) init).commitId = init.commitId := by
  intro p2s
  induction p2s with
  | nil => intro _ init; rfl
  | cons p2 t ih =>
    intro hp init
    rw [List.foldl_cons, ih (fun x hx => hp x (List.mem_cons_of_mem _ hx)),
      hp p2 (List.mem_cons_self _ _)]

theorem resolveLoop_commitId (repo : Repo) (coroutines : List (Nat × List Phase2Fun))
    (htp : TablePreserves coroutines) :
    ∀ fuel (branches : List (List Nat)) (vis : List (Nat × CommitResult)),
      (∀ e ∈ vis, e.2.commitId = e.1) →
      ∀ e ∈ resolveLoop repo coroutines fuel branches vis, e.2.commitId = e.1 := by
  intro fuel
  induction fuel with
  | zero => intro branches vis h; exact h
  | succ n ih =>
    intro branches vis h
    cases branches with
    | nil => exact h
    | cons br rest =>
      cases br with
      | nil => exact ih rest vis h
      | cons cid brest =>
        simp only [resolveLoop]
        split
        · apply ih
          intro e he
          rcases List.mem_append.mp he with he1 | he2
          · exact h e he1
          · obtain rfl : e = (cid,
              ((coroutines.lookup cid).getD []).foldl
                (fun acc p2 =>
                  p2 acc ((repo.commit cid).parents.map fun p => vis.lookup p))
                { commitId := cid }) := by simpa using he2
            cases hl : coroutines.lookup cid with
            | none => simp [hl]
            | some p2s =>
              simp only [hl, Option.getD_some]
              exact foldl_phase2_commitId _ p2s (htp _ (mem_of_lookup_eq_some hl)) _
        · exact ih _ vis h

/-- Claim C10: every result in the mapping produced by the walker running the
two built-in visitors binds "commit-id" to the commit's own identifier — the
walker seeds it and neither built-in visitor overwrites it. -/
theorem c10_commit_id_seeded (repo : Repo) (nm : String) (headId fuel : Nat) :
    (runAllResults repo nm headId fuel).all (fun pr => pr.2.commitId == pr.1) = true := by
  apply List.all_eq_true.mpr
  intro pr hpr
  have htp : TablePreserves
      (discoveryOf repo (builtinVisitors repo nm) headId fuel).coroutines := by
    apply discoverAll_tablePreserves repo _ headId _ (builtinVisitors_preserve repo nm)
    intro e he
    simp at he
  have hpr2 : pr ∈ resolveLoop repo
      (discoveryOf repo (builtinVisitors repo nm) headId fuel).coroutines fuel
      (((discoveryOf repo (builtinVisitors repo nm) headId fuel).branches).map
        List.reverse) [] := by
    simpa [runAllResults, runOnHistory] using hpr
  have hv := resolveLoop_commitId repo _ htp fuel _ [] (by intro e he; simp at he) pr hpr2
  simp [hv]

theorem orderOKB_append (d : Nat → Bool) (par : Nat → List Nat) :
    ∀ (xs seen : List Nat) (c : Nat),
      orderOKB d par seen (xs ++ [c]) =
        (orderOKB d par seen xs &&
          (par c).all fun p => !d p || decide (p ∈ xs ++ seen)) := by
  intro xs
  induction xs with
  | nil =>
    intro seen c
    simp [orderOKB]
  | cons x t ih =>
    intro seen c
    simp only [List.cons_append, orderOKB, List.append_eq, ih (x :: seen) c]
    rw [Bool.and_assoc]
    congr 1
    congr 1
    apply all_bool_congr
    intro p _
    congr 1
    apply decide_eq_decide.mpr
    simp only [List.mem_append, List.mem_cons]
    tauto

theorem discOK_finish (st : DiscState) (branch : List Nat) (st2 : DiscState)
    (hco : st2.coroutines = st.coroutines)
    (hbr : st2.branches = st.branches ++ [branch])
    (h : DiscOK st branch) : DiscOK st2 [] := by
  obtain ⟨h1, h2⟩ := h
  constructor
  · rw [hbr]
    simpa [List.flatten_append] using h1
  · intro x hx
    rw [hco]
    apply h2
    rw [hbr] at hx
    simpa [List.flatten_append] using hx

theorem discOK_step (st : DiscState) (branch : List Nat) (cid : Nat)
    (p2s : List Phase2Fun) (mcs : List Bool)
    (hguard : (st.coroutines.lookup cid).isSome = false)
    (h : DiscOK st branch) :
    DiscOK { st with coroutines := (cid, p2s) :: st.coroutines,
                     mustCont := (cid, mcs) :: st.mustCont }
      (branch ++ [cid]) := by
  obtain ⟨h1, h2⟩ := h
  have hnot : cid ∉ st.branches.flatten ++ branch := by
    intro hmem
    rw [h2 cid hmem] at hguard
    simp at hguard
  constructor
  · rw [← List.append_assoc]
    exact List.nodup_append.mpr
      ⟨h1, List.nodup_singleton _, List.disjoint_singleton.mpr hnot⟩
  · intro x hx
    rw [← List.append_assoc] at hx
    rcases List.mem_append.mp hx with hx1 | hx2
    · exact lookup_isSome_cons _ _ _ _ (h2 x hx1)
    · obtain rfl : x = cid := by simpa using hx2
      exact lookup_cons_self _ _ _

theorem walkChain_discOK (repo : Repo) (visitors : List Visitor) (headId : Nat)
    (childrenOf : Nat → List Nat) :
    ∀ fuel st cid branch, DiscOK st branch →
      DiscOK (walkChain repo visitors headId childrenOf fuel st cid branch) [] := by
  intro fuel
  induction fuel with
  | zero => intro st cid branch h; exact discOK_finish st branch _ rfl rfl h
  | succ n ih =>
    intro st cid branch h
    simp only [walkChain]
    split
    · exact discOK_finish st branch _ rfl rfl h
    case isFalse hguard =>
      have hg2 : (st.coroutines.lookup cid).isSome = false :=
        Bool.not_eq_true _ ▸ eq_false_of_ne_true hguard
      split
      · split
        case isTrue hbr =>
          subst hbr
          constructor
          · simpa using h.1
          · intro x hx
            exact h.2 x (by simpa using hx)
        case isFalse hbr => exact discOK_finish st branch _ rfl rfl h
      · rename_i cvmc hcvmc
        have hstep := discOK_step st branch cid
          ((List.zipWith (fun v b2 => v (repo.commit cid) b2) visitors cvmc).map Prod.snd)
          ((List.zipWith (fun v b2 => v (repo.commit cid) b2) visitors cvmc).map Prod.fst)
          hg2 h
        split
        · refine discOK_finish _ (branch ++ [cid]) _ ?_ ?_ hstep <;> rfl
        · split
          · exact ih _ _ _ hstep
          · refine discOK_finish _ (branch ++ [cid]) _ ?_ ?_ hstep <;> rfl

theorem discoverAll_discOK (repo : Repo) (visitors : List Visitor) (headId : Nat)
    (childrenOf : Nat → List Nat) :
    ∀ fuel st, DiscOK st [] →
      DiscOK (discoverAll repo visitors headId childrenOf fuel st) [] := by
  intro fuel
  induction fuel with
  | zero => intro st h; exact h
  | succ n ih =>
    intro st h
    simp only [discoverAll]
    split
    · exact h
    · exact ih _ (walkChain_discOK repo visitors headId childrenOf _ _ _ _ h)

theorem resolveLoop_inv (repo : Repo) (coroutines : List (Nat × List Phase2Fun)) :
    ∀ fuel (branches : List (List Nat)) (vis : List (Nat × CommitResult)),
      (vis.map Prod.fst).Nodup →
      branches.flatten.Nodup →
      (∀ x ∈ branches.flatten, x ∉ vis.map Prod.fst) →
      orderOKB (fun p => (coroutines.lookup p).isSome)
        (fun cid => (repo.commit cid).parents) [] (vis.map Prod.fst) = true →
      ((resolveLoop repo coroutines fuel branches vis).map Prod.fst).Nodup ∧
        orderOKB (fun p => (coroutines.lookup p).isSome)
          (fun cid => (repo.commit cid).parents) []
          ((resolveLoop repo coroutines fuel branches vis).map Prod.fst) = true := by
  intro fuel
  induction fuel with
  | zero => intro branches vis h1 h2 h3 h4; exact ⟨h1, h4⟩
  | succ n ih =>
    intro branches vis h1 h2 h3 h4
    cases branches with
    | nil => exact ⟨h1, h4⟩
    | cons br rest =>
      cases br with
      | nil =>
        refine ih rest vis h1 ?_ ?_ h4
        · simpa using h2
        · intro x hx
          exact h3 x (by simpa using hx)
      | cons cid brest =>
        rw [List.flatten_cons, List.cons_append] at h2
        obtain ⟨hcidnot, htail⟩ := List.nodup_cons.mp h2
        simp only [resolveLoop]
        split
        case isTrue hg =>
          apply ih
          · rw [List.map_append]
            refine List.nodup_append.mpr ⟨h1, List.nodup_singleton _, ?_⟩
            simp only [List.map_cons, List.map_nil, List.disjoint_singleton]
            exact h3 cid (by simp [List.flatten_cons])
          · rw [List.flatten_cons]
            exact htail
          · intro x hx
            rw [List.flatten_cons] at hx
            rw [List.map_append]
            simp only [List.map_cons, List.map_nil, List.mem_append,
              List.mem_singleton, not_or]
            refine ⟨h3 x ?_, ?_⟩
            · rw [List.flatten_cons, List.cons_append]
              exact List.mem_cons_of_mem _ hx
            · intro hxeq
              subst hxeq
              exact hcidnot hx
          · rw [List.map_append]
            simp only [List.map_cons, List.map_nil]
            rw [orderOKB_append, h4, Bool.true_and]
            apply List.all_eq_true.mpr
            intro p hp
            have hgp := List.all_eq_true.mp hg p hp
            cases hs : (List.lookup p vis).isSome with
            | true =>
              have hmem : p ∈ vis.map Prod.fst := (lookup_isSome_iff vis p).mp hs
              simp [hmem]
            | false =>
              have hn : (List.lookup p coroutines).isNone = true := by
                rw [hs] at hgp
                simpa using hgp
              have hnone : List.lookup p coroutines = none :=
                Option.isNone_iff_eq_none.mp hn
              simp [hnone]
        case isFalse hg =>
          have hperm : (rest ++ [cid :: brest]).flatten.Perm
              (((cid :: brest) :: rest).flatten) := by
            rw [List.flatten_append, List.flatten_cons]
            simp only [List.flatten_cons, List.flatten_nil, List.append_nil]
            exact List.perm_append_comm
          refine ih _ vis h1 ?_ ?_ h4
          · refine (hperm.nodup_iff).mpr ?_
            rw [List.flatten_cons, List.cons_append]
            exact h2
          · intro x hx
            have hxo : x ∈ ((cid :: brest) :: rest).flatten := hperm.subset hx
            rw [List.flatten_cons, List.cons_append] at hxo
            rcases List.mem_cons.mp hxo with rfl | hxm
            · exact h3 x (by simp [List.flatten_cons])
            · apply h3 x
              rw [List.flatten_cons, List.cons_append]
              exact List.mem_cons_of_mem _ hxm

/-- Claim C8 (amended): over any fuel, visitors and repository, the
resolution pass computes each commit's result at most once — the result keys
are pairwise distinct — and a commit is resolved only after every one of its
parents that was itself discovered (holds coroutines) has been resolved. -/
theorem c8_resolution_at_most_once_and_ordered (repo : Repo) (visitors : List Visitor)
    (headId fuel : Nat) :
    ((runOnHistory repo visitors headId fuel).map Prod.fst).Nodup ∧
      orderOKB
        (fun p => (((discoveryOf repo visitors headId fuel).coroutines).lookup p).isSome)
        (fun cid => (repo.commit cid).parents) []
        ((runOnHistory repo visitors headId fuel).map Prod.fst) = true := by
  have hd : DiscOK (discoveryOf repo visitors headId fuel) [] := by
    apply discoverAll_discOK
    constructor
    · simp
    · intro x hx
      simp at hx
  have h2 : ((discoveryOf repo visitors headId fuel).branches.map List.reverse).flatten.Nodup :=
    ((flatten_map_reverse_perm _).nodup_iff).mpr (by simpa using hd.1)
  have hres := resolveLoop_inv repo (discoveryOf repo visitors headId fuel).coroutines fuel
    ((discoveryOf repo visitors headId fuel).branches.map List.reverse) []
    (by simp) h2 (by simp) rfl
  simpa only [runOnHistory] using hres

/-- Claim C8 counterexample: commit 42 is reachable from head 41 (it is in
the reachability walk), yet the run computes no result for it at all — its
epoch-version and changelog differ from the head's, so every visitor stops
and the commit is never discovered, contradicting "each reachable commit's
CommitResult is computed exactly once". -/
theorem c8_counterexample :
    42 ∈ (repoC8.walk 41).map Commit.id ∧
      (runAllResults repoC8 "pkg" 41 16).map Prod.fst = [41] ∧
      (runAllResults repoC8 "pkg" 41 16).lookup 42 = none := by
  decide

end Rpmautospec
